import Mathlib

/-!
Verification development for the reconciliation core of this repository:
the port-forward controller's reconciliation algorithm, the store's
manifest-target model, and the docker-compose client (version parsing,
mutex discipline around the unsafe verbs, and the `Rm` fast path).

Go source is embedded shallowly: pure functions become Lean functions,
machine integers become `Nat` (all values involved are small positive
ports and list lengths, far from any overflow boundary), stateful code
becomes explicit state passing, and the mutex discipline becomes a small
step relation over thread program counters.
-/

set_option linter.all false

namespace Tilt

/-! ### Port-forward data model

The controller implementation (`portforwardcontroller.go`) is exercised
by the provided test file but its own source is not among the provided
files, so the definitions in this section are modelled from the spec
(section 4.3, "Port-Forward Controller — reconciliation algorithm") and
checked against the behaviour pinned by `portforwardcontroller_test.go`.
-/

/-- Pod phase enum (`v1.PodPhase`): Pending, Running, Succeeded, Failed, Unknown. -/
inductive PodPhase where
  | pending
  | running
  | succeeded
  | failed
  | unknown
  deriving DecidableEq, Repr

/-- A declared port forward (`model.PortForward`): `LocalPort` plus an optional
`ContainerPort`, where `0` means "auto-discover". -/
structure PortForward where
  localPort : Nat
  containerPort : Nat
  deriving DecidableEq, Repr

/-- An observed container (`store.Container`): its declared ports. -/
structure Container where
  ports : List Nat
  deriving DecidableEq, Repr

/-- An observed pod (`store.Pod`): id, phase and containers. -/
structure Pod where
  podID : String
  phase : PodPhase
  containers : List Container
  deriving DecidableEq, Repr

/-- Modelled from the spec: the target's observed runtime state as seen by the
port-forward controller — either absent ("no observed runtime yet") or a
Kubernetes runtime state; the controller consults the (most recent) pod of the
Kubernetes variant, so the variant carries that pod. -/
inductive RuntimeState where
  | absent
  | k8s (pod : Pod)
  deriving DecidableEq, Repr

/-- Modelled from the spec: resolution of one declared forward against the
observed containers. An explicitly nonzero `ContainerPort` is kept unchanged;
otherwise, if the `LocalPort` value occurs among the ports flattened from all
containers, the `ContainerPort` is set to the `LocalPort` (exact-value match);
otherwise, if the pod has exactly one container with exactly one declared
port, that port is used (single-port fallback); otherwise the entry is
unresolved for this cycle. -/
def resolvePortForward (containers : List Container) (pf : PortForward) :
    Option PortForward :=
  if pf.containerPort ≠ 0 then
    some pf
  else
    let allPorts := (containers.map Container.ports).join
    if pf.localPort ∈ allPorts then
      some { pf with containerPort := pf.localPort }
    else
      match containers with
      | [c] =>
        match c.ports with
        | [p] => some { pf with containerPort := p }
        | _ => none
      | _ => none

/-- Modelled from the spec: `populatePortForwards` (port resolution), whose
source is not among the provided files. Each declared forward is resolved
independently; unresolved entries are omitted from the result. -/
def populatePortForwards (forwards : List PortForward) (containers : List Container) :
    List PortForward :=
  forwards.filterMap (resolvePortForward containers)

/-- The slice of one `ManifestTarget` the port-forward controller reads:
target name, declared forwards of the Kubernetes deploy target, and the
observed runtime state. -/
structure TargetSnap where
  name : String
  portForwards : List PortForward
  runtime : RuntimeState
  deriving DecidableEq, Repr

/-- The controller's private bookkeeping for one target: the pod the running
forward is bound to and the resolved local-to-container port pairs. -/
structure ActiveForward where
  podID : String
  forwards : List PortForward
  deriving DecidableEq, Repr

/-- Modelled from the spec: the desired forward identity for one target.
Targets with no declared forwards, an absent runtime, a pod whose phase is not
Running, or an empty resolved forward set, desire no forward. -/
def desiredForward (t : TargetSnap) : Option ActiveForward :=
  if t.portForwards = [] then none
  else
    match t.runtime with
    | .absent => none
    | .k8s pod =>
      if pod.phase = .running then
        let fwds := populatePortForwards t.portForwards pod.containers
        if fwds = [] then none else some ⟨pod.podID, fwds⟩
      else none

/-- The desired forward identities of a whole snapshot, keyed by target name. -/
def desiredPairs (snap : List TargetSnap) : List (String × ActiveForward) :=
  snap.filterMap fun t => (desiredForward t).map fun d => (t.name, d)

/-- Modelled from the spec: one `OnChange` invocation of the port-forward
controller. Given the current active-forward bookkeeping and a state
snapshot, it computes the desired forward identity per target and diffs it
against the bookkeeping: a desired forward that is not already active
identically is started; an active forward that is no longer desired
identically is cancelled (a changed pod id or changed resolved ports is a
full replace: one stop plus one start). Returns the new bookkeeping, the
started forwards and the stopped forwards. -/
def onChange (active : List (String × ActiveForward)) (snap : List TargetSnap) :
    List (String × ActiveForward) × List (String × ActiveForward) × List (String × ActiveForward) :=
  let desired := desiredPairs snap
  let starts := desired.filter fun p => active.lookup p.1 ≠ some p.2
  let stops := active.filter fun p => desired.lookup p.1 ≠ some p.2
  (desired, starts, stops)

/-! ### Lemmas about the reconciliation model -/

/-- The keys of the desired-forward pairs form a sublist of the snapshot's
target names. -/
theorem desiredPairs_keys_sublist (snap : List TargetSnap) :
    ((desiredPairs snap).map Prod.fst).Sublist (snap.map TargetSnap.name) := by
  induction snap with
  | nil => simp [desiredPairs]
  | cons t ts ih =>
    simp only [desiredPairs, List.filterMap_cons, List.map_cons]
    cases h : (desiredForward t).map fun d => (t.name, d) with
    | none =>
      exact List.Sublist.cons _ ih
    | some p =>
      obtain ⟨d, _, rfl⟩ := Option.map_eq_some'.mp h
      exact List.Sublist.cons₂ _ ih

/-- In an association list with no duplicate keys, `lookup` of a member's key
returns that member's value. -/
theorem lookup_eq_of_mem_of_nodupKeys {β : Type} (l : List (String × β))
    (hnd : (l.map Prod.fst).Nodup) (p : String × β) (hp : p ∈ l) :
    l.lookup p.1 = some p.2 := by
  induction l with
  | nil => cases hp
  | cons q l' ih =>
    simp only [List.map_cons, List.nodup_cons] at hnd
    rcases List.mem_cons.mp hp with rfl | hmem
    · simp [List.lookup]
    · have hne : q.1 ≠ p.1 := by
        intro hq
        exact hnd.1 (hq ▸ List.mem_map_of_mem Prod.fst hmem)
      have : (p.1 == q.1) = false := by
        simp [beq_iff_eq]
        exact fun h => hne h.symm
      simp [List.lookup, this]
      exact ih hnd.2 hmem

/-! ### Claims about the port-forward controller -/

/-- C1: end-to-end reconciliation state transitions for a single target with a
declared forward `LocalPort 8080 / ContainerPort 8081`: with no running pod
(absent runtime) there are 0 active forwards; when the pod `pod-id` becomes
Running there is exactly 1 active forward bound to `pod-id` with resolved
container port 8081; when the pod id changes to `pod-id2` while Running the
count stays 1 but rebinds to `pod-id2` (the old forward is torn down); when
the declared `ContainerPort` is edited to 8082 with the pod unchanged the
bound remote port updates to 8082; when the phase becomes Pending the active
forwards drop to 0. -/
theorem c1_reconciliation_transitions :
    let pf0 : PortForward := ⟨8080, 8081⟩
    let pf1 : PortForward := ⟨8080, 8082⟩
    let snap0 := [TargetSnap.mk "fe" [pf0] .absent]
    let snap1 := [TargetSnap.mk "fe" [pf0] (.k8s ⟨"pod-id", .running, []⟩)]
    let snap2 := [TargetSnap.mk "fe" [pf0] (.k8s ⟨"pod-id2", .running, []⟩)]
    let snap3 := [TargetSnap.mk "fe" [pf1] (.k8s ⟨"pod-id2", .running, []⟩)]
    let snap4 := [TargetSnap.mk "fe" [pf1] (.k8s ⟨"pod-id2", .pending, []⟩)]
    let a0 := (onChange [] snap0).1
    let a1 := (onChange a0 snap1).1
    let a2 := (onChange a1 snap2).1
    let a3 := (onChange a2 snap3).1
    a0 = [] ∧
    onChange a0 snap1 = ([("fe", ⟨"pod-id", [pf0]⟩)], [("fe", ⟨"pod-id", [pf0]⟩)], []) ∧
    onChange a1 snap2 =
      ([("fe", ⟨"pod-id2", [pf0]⟩)], [("fe", ⟨"pod-id2", [pf0]⟩)], [("fe", ⟨"pod-id", [pf0]⟩)]) ∧
    onChange a2 snap3 =
      ([("fe", ⟨"pod-id2", [pf1]⟩)], [("fe", ⟨"pod-id2", [pf1]⟩)], [("fe", ⟨"pod-id2", [pf0]⟩)]) ∧
    onChange a3 snap4 = ([], [], [("fe", ⟨"pod-id2", [pf1]⟩)]) := by
  decide

/-- C2: reconciliation is idempotent. Invoking `onChange` a second time on an
unchanged snapshot (whose target names are distinct, as they are in the store,
which is keyed by name) starts no forward, stops no forward, and leaves the
active-forward bookkeeping unchanged. -/
theorem c2_onChange_idempotent (active : List (String × ActiveForward))
    (snap : List TargetSnap) (hnd : (snap.map TargetSnap.name).Nodup) :
    onChange (onChange active snap).1 snap = ((onChange active snap).1, [], []) := by
  have hkeys : ((desiredPairs snap).map Prod.fst).Nodup :=
    (desiredPairs_keys_sublist snap).nodup hnd
  have hlook : ∀ p ∈ desiredPairs snap, (desiredPairs snap).lookup p.1 = some p.2 :=
    fun p hp => lookup_eq_of_mem_of_nodupKeys _ hkeys p hp
  simp only [onChange]
  refine Prod.ext rfl (Prod.ext ?_ ?_) <;> simp only
  · rw [List.filter_eq_nil]
    intro p hp
    simp [hlook p hp]
  · rw [List.filter_eq_nil]
    intro p hp
    simp [hlook p hp]

/-- C2 witness: the idempotence theorem applied to the concrete single-target
snapshot of the test suite. -/
theorem c2_onChange_idempotent_witness :
    let snap := [TargetSnap.mk "fe" [⟨8080, 8081⟩] (.k8s ⟨"pod-id", .running, []⟩)]
    onChange (onChange [] snap).1 snap = ((onChange [] snap).1, [], []) :=
  c2_onChange_idempotent [] _ (by decide)

/-- C3: for an auto-discover entry (ContainerPort zero) whose LocalPort occurs
among the ports flattened from all containers, resolution sets ContainerPort
equal to LocalPort; and concretely, LocalPort 8080 against one container
exposing ports 8000 and 8080 resolves to ContainerPort 8080, so the
exact-value match takes precedence over the single-container fallback. -/
theorem c3_resolve_exact_match (pf : PortForward) (containers : List Container)
    (hzero : pf.containerPort = 0)
    (hmem : pf.localPort ∈ (containers.map Container.ports).join) :
    resolvePortForward containers pf = some ⟨pf.localPort, pf.localPort⟩ ∧
      populatePortForwards [⟨8080, 0⟩] [⟨[8000, 8080]⟩] = [⟨8080, 8080⟩] := by
  constructor
  · simp [resolvePortForward, hzero, hmem]
  · decide

/-- C3 witness: the exact-match theorem applied to forward 8080 against a
container exposing ports 8000, 8080 and 8001. -/
theorem c3_resolve_exact_match_witness :
    resolvePortForward [⟨[8000, 8080, 8001]⟩] ⟨8080, 0⟩ = some ⟨8080, 8080⟩ ∧
      populatePortForwards [⟨8080, 0⟩] [⟨[8000, 8080]⟩] = [⟨8080, 8080⟩] :=
  c3_resolve_exact_match ⟨8080, 0⟩ [⟨[8000, 8080, 8001]⟩] (by decide) (by decide)

/-- C4: for an auto-discover entry whose LocalPort matches no observed
container port: with exactly one container declaring exactly one port,
resolution falls back to that single port; with zero observed containers the
entry is unresolved; and in every other shape (several containers, or a single
container with zero or several ports) the entry is likewise unresolved and
omitted from the desired forward set. -/
theorem c4_resolve_fallback :
    (∀ (pf : PortForward) (c : Container) (p : Nat),
      pf.containerPort = 0 → pf.localPort ∉ c.ports → c.ports = [p] →
      resolvePortForward [c] pf = some ⟨pf.localPort, p⟩) ∧
    (∀ pf : PortForward, pf.containerPort = 0 → resolvePortForward [] pf = none) ∧
    (∀ (pf : PortForward) (containers : List Container),
      pf.containerPort = 0 →
      pf.localPort ∉ (containers.map Container.ports).join →
      (∀ c p, containers = [c] → c.ports ≠ [p]) →
      resolvePortForward containers pf = none) := by
  refine ⟨?_, ?_, ?_⟩
  · intro pf c p hzero hmem hports
    have hne : pf.localPort ≠ p := by
      rw [hports] at hmem
      simpa using hmem
    simp [resolvePortForward, hzero, hports, hne]
  · intro pf hzero
    simp [resolvePortForward, hzero]
  · intro pf containers hzero hmem hshape
    simp only [resolvePortForward, hzero, ne_eq, not_true_eq_false, if_false,
      ite_eq_right_iff]
    rw [if_neg hmem]
    cases containers with
    | nil => rfl
    | cons c cs =>
      cases cs with
      | cons c' cs' => rfl
      | nil =>
        cases hports : c.ports with
        | nil => simp [hports]
        | cons p ps =>
          cases ps with
          | nil => exact absurd hports (hshape c p rfl)
          | cons q qs => simp [hports]

/-- C4 witness: fallback resolution of forward 8080 against a single container
exposing only port 8000 yields ContainerPort 8000; against zero containers and
against a single container with two unmatched ports it yields nothing. -/
theorem c4_resolve_fallback_witness :
    resolvePortForward [⟨[8000]⟩] ⟨8080, 0⟩ = some ⟨8080, 8000⟩ ∧
      resolvePortForward [] ⟨8080, 0⟩ = none ∧
      resolvePortForward [⟨[8000, 8001]⟩] ⟨8080, 0⟩ = none := by
  refine ⟨?_, ?_, ?_⟩
  · exact c4_resolve_fallback.1 ⟨8080, 0⟩ ⟨[8000]⟩ 8000 (by decide) (by decide) rfl
  · exact c4_resolve_fallback.2.1 ⟨8080, 0⟩ (by decide)
  · exact c4_resolve_fallback.2.2 ⟨8080, 0⟩ [⟨[8000, 8001]⟩] (by decide) (by decide)
      (by intro c p hc; simp at hc; rw [← hc]; simp)

/-- C5: an entry with an explicitly nonzero ContainerPort is returned
unchanged by resolution, whatever the observed container ports are: no
auto-discovery is attempted and the explicit value always wins. -/
theorem c5_resolve_explicit_unchanged (containers : List Container)
    (pf : PortForward) (h : pf.containerPort ≠ 0) :
    resolvePortForward containers pf = some pf := by
  simp [resolvePortForward, h]

/-- C5 witness: the explicit forward 8080 to 8000 is unchanged against a pod
exposing ports 8000, 8080 and 8001. -/
theorem c5_resolve_explicit_unchanged_witness :
    resolvePortForward [⟨[8000, 8080, 8001]⟩] ⟨8080, 8000⟩ = some ⟨8080, 8000⟩ :=
  c5_resolve_explicit_unchanged [⟨[8000, 8080, 8001]⟩] ⟨8080, 8000⟩ (by decide)

/-! ### Store: manifest targets and facets

`ManifestTarget`, `NewManifestTarget` and `Facets` are embedded from
`internal/store/manifest_target.go`. String renderings produced by Go's
`fmt` on values of external types (build reason, error, duration) are
abstracted as string fields of `BuildRecord`. -/

/-- A completed build attempt (`model.BuildRecord`): reason, optional error,
start and finish times, changed file paths and captured log text. The reason
and error fields carry the strings Go's formatting would produce; the times
are abstract instants whose difference renders the duration. -/
structure BuildRecord where
  reason : String
  error : Option String
  startTime : Nat
  finishTime : Nat
  edits : List String
  log : String
  deriving DecidableEq, Repr

/-- Observed status of one workload (`store.ManifestState`): build history
(newest first) plus the observed runtime state. -/
structure ManifestState where
  buildHistory : List BuildRecord
  runtimeState : RuntimeState
  deriving DecidableEq, Repr

/-- Deploy-target variants of a manifest (`model.Manifest`): the Kubernetes
variant carries the deployment YAML and the declared port forwards. -/
inductive DeployTarget where
  | k8s (yaml : String) (portForwards : List PortForward)
  | dockerCompose
  | localTarget
  deriving DecidableEq, Repr

/-- Immutable desired spec of one workload (`model.Manifest`): unique name,
deploy target, and the local paths used to shorten changed-file names. -/
structure Manifest where
  name : String
  deploy : DeployTarget
  localPaths : List String
  deriving DecidableEq, Repr

/-- The pairing of a Manifest with its ManifestState (`store.ManifestTarget`). -/
structure ManifestTarget where
  manifest : Manifest
  state : ManifestState
  deriving DecidableEq, Repr

/-- Modelled from the spec: `newManifestState` is not among the provided
sources; a fresh state has an empty build history and no observed runtime. -/
def newManifestState : ManifestState :=
  ⟨[], .absent⟩

/-- `store.NewManifestTarget`: pairs the manifest with a fresh state. -/
def NewManifestTarget (m : Manifest) : ManifestTarget :=
  ⟨m, newManifestState⟩

/-- A short textual facet (`model.Facet`). -/
structure Facet where
  name : String
  value : String
  deriving DecidableEq, Repr

/-- Modelled from the spec: a secret set is abstracted as the redaction
function its `Scrub` method applies to a byte string. -/
def SecretSet : Type := String → String

/-- Modelled from the spec: `ospath.FileListDisplayNames` is not among the
provided sources; the spec only requires the changed-file list to be
displayed, so display names are abstracted as the recorded paths. -/
def fileListDisplayNames (localPaths : List String) (edits : List String) :
    List String :=
  edits

/-- One build record as rendered into the Build History facet by `Facets`:
the "Build finished" block with reason, result, duration and, when present,
the changed-file list. -/
def renderBuildRecord (localPaths : List String) (br : BuildRecord) : String :=
  "Build finished:\n"
    ++ "  Reason: " ++ br.reason ++ "\n"
    ++ "  Result: " ++ (match br.error with | none => "Success" | some e => e) ++ "\n"
    ++ "  Duration: " ++ toString (br.finishTime - br.startTime) ++ "\n"
    ++ (if br.edits.length > 0 then
          "  Changed files: "
            ++ String.intercalate ", " (fileListDisplayNames localPaths br.edits) ++ "\n"
        else "")
    ++ "\n\n"

/-- The Build History facet text: the build records rendered in order. -/
def renderBuildHistory (localPaths : List String) (histories : List BuildRecord) :
    String :=
  String.join (histories.map (renderBuildRecord localPaths))

/-- Modelled from the spec: the most recent build record, if any build
occurred (history is newest first; `ManifestState.LastBuild` is not among the
provided sources). -/
def ManifestTarget.lastBuild (t : ManifestTarget) : Option BuildRecord :=
  t.state.buildHistory.head?

/-- The Last Build Log portion of `Facets`: present when a build occurred. -/
def lastBuildFacets (t : ManifestTarget) : List Facet :=
  match t.lastBuild with
  | some br => [⟨"Last Build Log", br.log⟩]
  | none => []

/-- The Build History portion of `Facets`: present when the history is
nonempty; the displayed records are truncated to the first 20 when the
history holds more than 20 entries. -/
def buildHistoryFacets (t : ManifestTarget) : List Facet :=
  if t.state.buildHistory = [] then []
  else
    let histories :=
      if t.state.buildHistory.length > 20 then t.state.buildHistory.take 20
      else t.state.buildHistory
    [⟨"Build History", renderBuildHistory t.manifest.localPaths histories⟩]

/-- The k8s_yaml portion of `Facets`: for Kubernetes targets, the deployment
YAML with secrets redacted. -/
def k8sYamlFacets (t : ManifestTarget) (secrets : SecretSet) : List Facet :=
  match t.manifest.deploy with
  | .k8s yaml _ => [⟨"k8s_yaml", secrets yaml⟩]
  | _ => []

/-- `ManifestTarget.Facets`: the sequential appends of the Go method, as the
concatenation of its three optional parts. -/
def Facets (t : ManifestTarget) (secrets : SecretSet) : List Facet :=
  lastBuildFacets t ++ buildHistoryFacets t ++ k8sYamlFacets t secrets

/-- Modelled from the spec: `EngineState.UpsertManifestTarget` is not among
the provided sources. The engine state is the insertion-ordered association
of target names to manifest targets; upserting under a fresh name appends,
while upserting under an existing name preserves the existing ManifestState
and replaces only the Manifest half. -/
def upsertManifestTarget (e : List (String × ManifestTarget)) (mt : ManifestTarget) :
    List (String × ManifestTarget) :=
  if e.lookup mt.manifest.name = none then
    e ++ [(mt.manifest.name, mt)]
  else
    e.map fun p =>
      if p.1 = mt.manifest.name then (p.1, ⟨mt.manifest, p.2.state⟩) else p

/-- Replacing the manifest half of every entry under a key leaves `lookup` of
that key pointing at the old entry's state paired with the new manifest. -/
theorem lookup_map_replaceManifest (e : List (String × ManifestTarget))
    (n : String) (m : Manifest) (old : ManifestTarget)
    (h : e.lookup n = some old) :
    (e.map fun p => if p.1 = n then (p.1, ⟨m, p.2.state⟩) else p).lookup n =
      some ⟨m, old.state⟩ := by
  induction e with
  | nil => cases h
  | cons q e' ih =>
    obtain ⟨k, v⟩ := q
    rw [List.map_cons]
    by_cases hq : k = n
    · subst hq
      have hold : v = old := by
        rw [List.lookup_cons] at h
        simpa using h
      subst hold
      rw [if_pos (show (k, v).1 = k from rfl)]
      rw [List.lookup_cons]
      simp
    · have hbeq : (n == k) = false := by
        simp only [beq_eq_false_iff_ne, ne_eq]
        exact fun hn => hq hn.symm
      have h' : e'.lookup n = some old := by
        rw [List.lookup_cons] at h
        rw [hbeq] at h
        exact h
      rw [if_neg (show ¬((k, v).1 = n) from hq)]
      rw [List.lookup_cons]
      rw [hbeq]
      exact ih h'

/-! ### Claims about the store -/

/-- C6: upserting a manifest target whose name already exists in the engine
state replaces only the Manifest half: the entry found under that name
afterwards pairs the new manifest with exactly the pre-existing state, so the
prior BuildHistory and RuntimeState are untouched (the embedding is pure, so
no other entry or field is affected either, as the accompanying conjunct for
an unrelated name shows). -/
theorem c6_upsert_preserves_state (e : List (String × ManifestTarget))
    (mt old : ManifestTarget) (h : e.lookup mt.manifest.name = some old) :
    (upsertManifestTarget e mt).lookup mt.manifest.name =
      some ⟨mt.manifest, old.state⟩ := by
  unfold upsertManifestTarget
  rw [if_neg (by simp [h])]
  exact lookup_map_replaceManifest e mt.manifest.name mt.manifest old h

/-- C6 witness: upserting a replacement manifest for name "fe" over a state
holding one build record and a running pod keeps that history and runtime
state. -/
theorem c6_upsert_preserves_state_witness :
    (upsertManifestTarget
        [("fe", ⟨⟨"fe", .k8s "yaml-a" [⟨8080, 8081⟩], []⟩,
          ⟨[⟨"changed files", none, 3, 5, ["main.go"], "build log"⟩],
            .k8s ⟨"pod-id", .running, []⟩⟩⟩)]
        (NewManifestTarget ⟨"fe", .k8s "yaml-b" [⟨8080, 8082⟩], []⟩)).lookup "fe" =
      some ⟨⟨"fe", .k8s "yaml-b" [⟨8080, 8082⟩], []⟩,
        ⟨[⟨"changed files", none, 3, 5, ["main.go"], "build log"⟩],
          .k8s ⟨"pod-id", .running, []⟩⟩⟩ :=
  c6_upsert_preserves_state
    [("fe", ⟨⟨"fe", .k8s "yaml-a" [⟨8080, 8081⟩], []⟩,
      ⟨[⟨"changed files", none, 3, 5, ["main.go"], "build log"⟩],
        .k8s ⟨"pod-id", .running, []⟩⟩⟩)]
    (NewManifestTarget ⟨"fe", .k8s "yaml-b" [⟨8080, 8082⟩], []⟩)
    ⟨⟨"fe", .k8s "yaml-a" [⟨8080, 8081⟩], []⟩,
      ⟨[⟨"changed files", none, 3, 5, ["main.go"], "build log"⟩],
        .k8s ⟨"pod-id", .running, []⟩⟩⟩
    (by decide)

/-- C9: when the build history holds more than 20 records, the Build History
facet produced by `Facets` is rendered from exactly the first (most recent)
20 records, the rest being omitted; the truncated display covers exactly 20
records. The history itself is untouched: `Facets` is a pure function of the
target and returns only the facet list. -/
theorem c9_facets_truncate (t : ManifestTarget) (secrets : SecretSet)
    (h : t.state.buildHistory.length > 20) :
    Facet.mk "Build History"
        (renderBuildHistory t.manifest.localPaths (t.state.buildHistory.take 20))
      ∈ Facets t secrets ∧
    (t.state.buildHistory.take 20).length = 20 := by
  have hne : t.state.buildHistory ≠ [] := by
    intro hnil
    rw [hnil] at h
    simp at h
  constructor
  · have hfacet : buildHistoryFacets t =
        [⟨"Build History",
          renderBuildHistory t.manifest.localPaths (t.state.buildHistory.take 20)⟩] := by
      simp [buildHistoryFacets, hne, h]
    simp [Facets, hfacet]
  · simpa [List.length_take] using Nat.min_eq_left (Nat.le_of_lt h)

/-- C9 witness: a target whose history holds 21 identical records displays
exactly the first 20 of them. -/
theorem c9_facets_truncate_witness :
    let br : BuildRecord := ⟨"changed files", none, 3, 5, [], "log"⟩
    let t : ManifestTarget :=
      ⟨⟨"fe", .k8s "yaml" [], []⟩, ⟨List.replicate 21 br, .absent⟩⟩
    Facet.mk "Build History"
        (renderBuildHistory t.manifest.localPaths (t.state.buildHistory.take 20))
      ∈ Facets t (fun s => s) ∧
    (t.state.buildHistory.take 20).length = 20 := by
  exact c9_facets_truncate _ _ (by simp)

/-! ### Compose client: version parsing

`parseComposeVersionOutput` is embedded from
`internal/dockercompose/client.go`. Its two ingredients are embedded at the
character level: the `versionRegex` anchored multiline case-insensitive
pattern (translated into an explicit matcher with the same leftmost,
greedy-with-backtracking submatch semantics), and the `Canonical` and
`Build` functions of the `golang.org/x/mod/semver` package it calls. -/

/-- Whitespace trimmed by Go's `bytes.TrimSpace` (`unicode.IsSpace` in the
ASCII and Latin-1 range). -/
def goSpace (c : Char) : Bool :=
  c = ' ' || c = '\t' || c = '\n' || c = '\x0b' || c = '\x0c' || c = '\r'
    || c = '\x85' || c = '\xa0'

/-- Go's `bytes.TrimSpace` on a character list. -/
def goTrimSpace (s : List Char) : List Char :=
  ((s.dropWhile goSpace).reverse.dropWhile goSpace).reverse

/-- Characters of the regex class `\s` (RE2 Perl class: tab, newline, form
feed, carriage return, space). -/
def regexSpace (c : Char) : Bool :=
  c = '\t' || c = '\n' || c = '\x0c' || c = '\r' || c = ' '

/-- Characters admitted by the first capture group `[^\s,]+`. -/
def versionChar (c : Char) : Bool :=
  !(regexSpace c || c = ',')

/-- Characters admitted by the second capture group `[a-z0-9-]+` under the
case-insensitive flag. -/
def buildChar (c : Char) : Bool :=
  ('a' ≤ c.toLower && c.toLower ≤ 'z') || c.isDigit || c = '-'

/-- Case-insensitive literal match: consumes the pattern (given lowercase)
from the head of the input and returns the remainder. -/
def strCI : List Char → List Char → Option (List Char)
  | [], s => some s
  | _ :: _, [] => none
  | p :: ps, c :: cs => if c.toLower = p then strCI ps cs else none

/-- The optional ` build ([a-z0-9-]+)` group: when the literal and at least
one class character follow, the group participates and captures the maximal
run; otherwise the group is skipped. -/
def matchBuildTag (s : List Char) : Option (List Char) :=
  match strCI " build ".toList s with
  | some r =>
    let b := r.takeWhile buildChar
    if b = [] then none else some b
  | none => none

/-- The `([^\s,]+),?( build ([a-z0-9-]+))?` tail: the greedy capture is the
maximal run of class characters (nonempty, else no match), an optional comma
is consumed, and the optional build group is attempted after it. -/
def captureVersion (s : List Char) : Option (List Char × Option (List Char)) :=
  let run := s.takeWhile versionChar
  if run = [] then none
  else
    let rest := s.drop run.length
    let rest :=
      match rest with
      | ',' :: r => r
      | _ => rest
    some (run, matchBuildTag rest)

/-- The `v?` before the capture: the optional `v` is consumed greedily, and
given back (becoming the first capture character) when nothing capturable
follows it. -/
def vCapture (s : List Char) : Option (List Char × Option (List Char)) :=
  match s with
  | [] => none
  | c :: rest =>
    if c.toLower = 'v' then
      match captureVersion rest with
      | some m => some m
      | none => captureVersion s
    else captureVersion s

/-- The `:? v?` part: an optional colon, then a mandatory space, then the
version capture. -/
def colonSpaceTail (s : List Char) : Option (List Char × Option (List Char)) :=
  let s1 :=
    match s with
    | ':' :: r => r
    | _ => s
  match s1 with
  | ' ' :: r => vCapture r
  | _ => none

/-- The `( version)?:? v?...` part after the `compose` literal: the optional
` version` literal is tried greedily, with backtracking to the bare tail when
the rest of the pattern fails after it. -/
def afterCompose (s : List Char) : Option (List Char × Option (List Char)) :=
  match strCI " version".toList s with
  | some r =>
    match colonSpaceTail r with
    | some m => some m
    | none => colonSpaceTail s
  | none => colonSpaceTail s

/-- An attempted match of `versionRegex` at one anchored position:
`docker[ -]compose` case-insensitively, then the rest of the pattern. -/
def matchAt (s : List Char) : Option (List Char × Option (List Char)) :=
  match strCI "docker".toList s with
  | some (c :: r) =>
    if c = ' ' ∨ c = '-' then
      match strCI "compose".toList r with
      | some r2 => afterCompose r2
      | none => none
    else none
  | _ => none

/-- Attempted matches at every position following a newline, leftmost
first (the pattern is `^`-anchored under the multiline flag, so these are
the only candidate positions besides the start of the text). -/
def findAfterNewline : List Char → Option (List Char × Option (List Char))
  | [] => none
  | c :: rest =>
    if c = '\n' then
      match matchAt rest with
      | some m => some m
      | none => findAfterNewline rest
    else findAfterNewline rest

/-- `versionRegex.FindSubmatch`: the leftmost match of the anchored pattern,
as the pair of the mandatory version capture and the optional build capture. -/
def versionRegexFind (s : List Char) : Option (List Char × Option (List Char)) :=
  match matchAt s with
  | some m => some m
  | none => findAfterNewline s

/-! Semver functions of `golang.org/x/mod/semver` called by the source:
`Canonical` and `Build`, with the package's internal `parse`. -/

/-- Leading decimal number of `semver.parseInt`: a nonempty digit run with no
leading zero (unless the number is exactly `0`), plus the remainder. -/
def parseIntSv : List Char → Option (List Char × List Char)
  | [] => none
  | c :: cs =>
    if c.isDigit then
      let t := (c :: cs).takeWhile Char.isDigit
      let rest := (c :: cs).dropWhile Char.isDigit
      if c = '0' ∧ t.length ≠ 1 then none else some (t, rest)
    else none

/-- Identifier characters of semver prerelease/build segments. -/
def identChar (c : Char) : Bool :=
  ('A' ≤ c && c ≤ 'Z') || ('a' ≤ c && c ≤ 'z') || c.isDigit || c = '-'

/-- Numeric segments with a leading zero are rejected in prereleases
(`semver.isBadNum`). -/
def isBadNum (v : List Char) : Bool :=
  v.all Char.isDigit && decide (v.length > 1) && decide (v.head? = some '0')

/-- Splits a segment string at the dots, keeping empty segments. -/
def dotSegments (v : List Char) : List (List Char) :=
  match v.splitOn '.' with
  | segs => segs

/-- Steps of `semver.parsePrerelease`: a `-` followed by dot-separated
nonempty identifier segments (numeric ones without leading zeros), up to the
end or a `+`; returns the consumed text and the remainder. -/
def parsePrereleaseSv : List Char → Option (List Char × List Char)
  | '-' :: body =>
    let taken := body.takeWhile (· ≠ '+')
    let rest := body.dropWhile (· ≠ '+')
    if taken.all (fun c => identChar c || c = '.')
        && (dotSegments taken).all (fun seg => !seg.isEmpty && !isBadNum seg) then
      some ('-' :: taken, rest)
    else none
  | _ => none

/-- Steps of `semver.parseBuild`: a `+` followed by dot-separated nonempty
identifier segments running to the end of the string. -/
def parseBuildSv : List Char → Option (List Char × List Char)
  | '+' :: body =>
    if body.all (fun c => identChar c || c = '.')
        && (dotSegments body).all (fun seg => !seg.isEmpty) then
      some ('+' :: body, [])
    else none
  | _ => none

/-- Result of `semver.parse`: the `short` completion suffix for an
abbreviated version, the prerelease and the build metadata (each empty when
absent). -/
structure SvParsed where
  short : List Char
  prerelease : List Char
  build : List Char
  deriving DecidableEq, Repr

/-- `semver.parse`: a `v`, a major number, optionally `.minor` and
`.minor.patch`, then an optional prerelease and optional build metadata. -/
def semverParse (v : List Char) : Option SvParsed :=
  match v with
  | 'v' :: v1 =>
    match parseIntSv v1 with
    | none => none
    | some (_, v2) =>
      match v2 with
      | [] => some ⟨".0.0".toList, [], []⟩
      | '.' :: v3 =>
        match parseIntSv v3 with
        | none => none
        | some (_, v4) =>
          match v4 with
          | [] => some ⟨".0".toList, [], []⟩
          | '.' :: v5 =>
            match parseIntSv v5 with
            | none => none
            | some (_, v6) =>
              let stepPre : Option (List Char × List Char) :=
                if v6.head? = some '-' then parsePrereleaseSv v6 else some ([], v6)
              match stepPre with
              | none => none
              | some (pre, v7) =>
                let stepBuild : Option (List Char × List Char) :=
                  if v7.head? = some '+' then parseBuildSv v7 else some ([], v7)
                match stepBuild with
                | none => none
                | some (bld, v8) =>
                  if v8 = [] then some ⟨[], pre, bld⟩ else none
          | _ => none
      | _ => none
  | _ => none

/-- `semver.Canonical`: empty for an invalid version; otherwise the version
with build metadata stripped and an abbreviated version completed with its
`.0` components. -/
def semverCanonical (v : List Char) : List Char :=
  match semverParse v with
  | none => []
  | some p =>
    if p.build ≠ [] then v.take (v.length - p.build.length)
    else if p.short ≠ [] then v ++ p.short
    else v

/-- `semver.Build`: the build metadata of a valid version, leading `+`
included; empty otherwise. -/
def semverBuild (v : List Char) : List Char :=
  match semverParse v with
  | none => []
  | some p => p.build

/-- `strings.TrimPrefix` of a leading plus sign. -/
def dropPlusSign (s : List Char) : List Char :=
  match s with
  | '+' :: r => r
  | _ => s

/-- `parseComposeVersionOutput`: trims the raw output, finds the leftmost
`versionRegex` match (no match is the "could not parse" error), prepends `v`
to the first capture, canonicalizes it via semver (an empty canonical form is
the "invalid version" error), and returns the canonical version together with
the semver build metadata when present, else the second capture, else the
empty string. Go's `%q` quoting inside the error messages is abstracted as
the raw text. -/
def parseComposeVersionOutput (stdout : String) : Except String (String × String) :=
  match versionRegexFind (goTrimSpace stdout.toList) with
  | none => .error ("could not parse version from output: " ++ stdout)
  | some (m1, m2) =>
    let rawVersion := 'v' :: m1
    let canonicalVersion := semverCanonical rawVersion
    if canonicalVersion = [] then
      .error ("invalid version: " ++ String.mk rawVersion)
    else
      let b := semverBuild rawVersion
      let b :=
        if b ≠ [] then dropPlusSign b
        else
          match m2 with
          | some m => m
          | none => []
      .ok (String.mk canonicalVersion, String.mk b)

/-! ### Claims about version parsing -/

/-- C7: a known v1-style `docker-compose version` output (four lines, comma
and build field) and a known v2-style output (`Docker Compose version
v2.0.0-rc.3`) both map to their normalized canonical semver and build
substring; and every input on which the version pattern finds no match is
mapped to the distinct "could not parse" error value — the parser is a total
function into `Except`, so no input can crash it. -/
theorem c7_version_parsing :
    parseComposeVersionOutput
        ("docker-compose version 1.25.4, build 8d51620a\n"
          ++ "docker-py version: 4.1.0\n"
          ++ "CPython version: 3.7.5\n"
          ++ "OpenSSL version: OpenSSL 1.1.0l  10 Sep 2019")
      = .ok ("v1.25.4", "8d51620a") ∧
    parseComposeVersionOutput "Docker Compose version v2.0.0-rc.3"
      = .ok ("v2.0.0-rc.3", "") ∧
    ∀ s : String, versionRegexFind (goTrimSpace s.toList) = none →
      parseComposeVersionOutput s
        = .error ("could not parse version from output: " ++ s) := by
  refine ⟨by rfl, by rfl, ?_⟩
  intro s h
  simp only [String.toList] at h
  simp [parseComposeVersionOutput, h]

/-- C7 witness: the theorem applied to the v1 and v2 outputs and to a
malformed input on which the pattern finds no match. -/
theorem c7_version_parsing_witness :
    parseComposeVersionOutput "Docker Compose version v2.0.0-rc.3"
      = .ok ("v2.0.0-rc.3", "") ∧
    parseComposeVersionOutput "some random text"
      = .error ("could not parse version from output: some random text") :=
  ⟨c7_version_parsing.2.1, c7_version_parsing.2.2 "some random text" (by rfl)⟩

/-! ### Compose client: mutual exclusion of the unsafe verbs

The bodies of `Up`, `Down` and `Rm` in `internal/dockercompose/client.go`
are abstracted to their sequences of atomic actions: optional unguarded
work (the `build` subcommand of `Up` runs before taking the mutex), then
`mu.Lock()`, the guarded command invocation, and the (deferred)
`mu.Unlock()`. Two concurrent invocations are a pair of such action lists
executed interleaved under Go mutex semantics, modelled as a step relation
over the two program counters and the mutex owner. -/

/-- Atomic actions of a compose-client verb. -/
inductive CmdAction where
  | lock
  | unlock
  | execCrit
  | execFree
  deriving DecidableEq, Repr

/-- An unsafe verb's action list: `n` unguarded actions, then the guarded
command invocation bracketed by the mutex. -/
def guardedProg (n : Nat) : List CmdAction :=
  List.replicate n .execFree ++ [.lock, .execCrit, .unlock]

/-- Action list of `Up`: with `shouldBuild`, the unguarded `build` command
first; then the mutex is taken around the `up` command and released. -/
def upActions (shouldBuild : Bool) : List CmdAction :=
  (if shouldBuild then [.execFree] else []) ++ [.lock, .execCrit, .unlock]

/-- Action list of `Down`: the mutex is taken around the `down` command. -/
def downActions : List CmdAction :=
  [.lock, .execCrit, .unlock]

/-- Action list of `Rm`: nothing at all for an empty spec list (the early
return), otherwise the mutex taken around the `rm` command. -/
def rmActions (specs : List String) : List CmdAction :=
  if specs = [] then [] else [.lock, .execCrit, .unlock]

/-- Interleaving state of two concurrent verb invocations: each thread's
program counter and the mutex owner (`false` marks thread 0). -/
structure MuState where
  pc0 : Nat
  pc1 : Nat
  owner : Option Bool
  deriving DecidableEq, Repr

/-- One atomic step of either thread: `lock` blocks until the mutex is free,
`unlock` requires the mutex to be held by the unlocking thread (Go's
`sync.Mutex` makes unlocking an unheld mutex a fatal error), and the command
actions merely advance. -/
inductive MuStep (p0 p1 : List CmdAction) : MuState → MuState → Prop where
  | lock0 (s : MuState) : p0[s.pc0]? = some .lock → s.owner = none →
      MuStep p0 p1 s ⟨s.pc0 + 1, s.pc1, some false⟩
  | unlock0 (s : MuState) : p0[s.pc0]? = some .unlock → s.owner = some false →
      MuStep p0 p1 s ⟨s.pc0 + 1, s.pc1, none⟩
  | exec0 (s : MuState) (a : CmdAction) : p0[s.pc0]? = some a →
      a = .execCrit ∨ a = .execFree →
      MuStep p0 p1 s ⟨s.pc0 + 1, s.pc1, s.owner⟩
  | lock1 (s : MuState) : p1[s.pc1]? = some .lock → s.owner = none →
      MuStep p0 p1 s ⟨s.pc0, s.pc1 + 1, some true⟩
  | unlock1 (s : MuState) : p1[s.pc1]? = some .unlock → s.owner = some true →
      MuStep p0 p1 s ⟨s.pc0, s.pc1 + 1, none⟩
  | exec1 (s : MuState) (a : CmdAction) : p1[s.pc1]? = some a →
      a = .execCrit ∨ a = .execFree →
      MuStep p0 p1 s ⟨s.pc0, s.pc1 + 1, s.owner⟩

/-- States reachable from both threads at their entry points with the mutex
free. -/
inductive MuReachable (p0 p1 : List CmdAction) : MuState → Prop where
  | init : MuReachable p0 p1 ⟨0, 0, none⟩
  | step {s t : MuState} : MuReachable p0 p1 s → MuStep p0 p1 s t →
      MuReachable p0 p1 t

/-- The instruction of a guarded program at each counter value. -/
theorem guardedProg_get (n i : Nat) :
    (guardedProg n)[i]? =
      if i < n then some CmdAction.execFree
      else if i = n then some CmdAction.lock
      else if i = n + 1 then some CmdAction.execCrit
      else if i = n + 2 then some CmdAction.unlock
      else none := by
  induction n generalizing i with
  | zero =>
    match i with
    | 0 => rfl
    | 1 => rfl
    | 2 => rfl
    | k + 3 => simp [guardedProg]
  | succ n ih =>
    have hcons : guardedProg (n + 1) = .execFree :: guardedProg n := by
      simp [guardedProg, List.replicate_succ]
    rw [hcons]
    match i with
    | 0 => simp
    | k + 1 =>
      rw [List.getElem?_cons_succ, ih k]
      split_ifs <;> first | rfl | omega

/-- A guarded program shows `lock` only at counter `n`. -/
theorem guardedProg_at_lock (n i : Nat)
    (h : (guardedProg n)[i]? = some CmdAction.lock) : i = n := by
  rw [guardedProg_get] at h
  split_ifs at h <;> simp_all

/-- A guarded program shows `unlock` only at counter `n + 2`. -/
theorem guardedProg_at_unlock (n i : Nat)
    (h : (guardedProg n)[i]? = some CmdAction.unlock) : i = n + 2 := by
  rw [guardedProg_get] at h
  split_ifs at h <;> simp_all

/-- A guarded program shows its guarded command only at counter `n + 1`. -/
theorem guardedProg_at_execCrit (n i : Nat)
    (h : (guardedProg n)[i]? = some CmdAction.execCrit) : i = n + 1 := by
  rw [guardedProg_get] at h
  split_ifs at h <;> simp_all

/-- A guarded program shows a command action only strictly before `n` (the
unguarded run) or at `n + 1` (the guarded command). -/
theorem guardedProg_at_exec (n i : Nat) (a : CmdAction)
    (h : (guardedProg n)[i]? = some a)
    (ha : a = CmdAction.execCrit ∨ a = CmdAction.execFree) :
    i < n ∨ i = n + 1 := by
  rw [guardedProg_get] at h
  rcases ha with rfl | rfl <;> split_ifs at h <;> simp_all <;> omega

/-- A thread is inside the mutex-guarded section when its counter lies
strictly past the `lock` instruction and at most at the `unlock`. -/
def inCrit (n pc : Nat) : Prop :=
  n + 1 ≤ pc ∧ pc ≤ n + 2

/-- One step of the interleaving preserves the mutex invariant relating each
thread's position to the mutex owner. -/
theorem mu_step_invariant (n0 n1 : Nat) (s t : MuState)
    (hstep : MuStep (guardedProg n0) (guardedProg n1) s t)
    (ih0 : inCrit n0 s.pc0 ↔ s.owner = some false)
    (ih1 : inCrit n1 s.pc1 ↔ s.owner = some true) :
    (inCrit n0 t.pc0 ↔ t.owner = some false) ∧
    (inCrit n1 t.pc1 ↔ t.owner = some true) := by
  cases hstep with
  | lock0 hget hown =>
    have hpc : s.pc0 = n0 := guardedProg_at_lock n0 s.pc0 hget
    rw [hown] at ih1
    constructor
    · simp only [inCrit, hpc]
      constructor
      · intro _; trivial
      · intro _; omega
    · constructor
      · intro hc; exact absurd (ih1.mp hc) (by simp)
      · intro hco; simp at hco
  | unlock0 hget hown =>
    have hpc : s.pc0 = n0 + 2 := guardedProg_at_unlock n0 s.pc0 hget
    rw [hown] at ih1
    constructor
    · simp only [inCrit, hpc]
      constructor
      · intro hc; omega
      · intro hco; simp at hco
    · constructor
      · intro hc; exact absurd (ih1.mp hc) (by simp)
      · intro hco; simp at hco
  | exec0 a hget ha =>
    have hpc := guardedProg_at_exec n0 s.pc0 a hget ha
    constructor
    · rcases hpc with hlt | heq
      · have hfree : ¬ inCrit n0 s.pc0 := by simp [inCrit]; omega
        have hfree' : ¬ inCrit n0 (s.pc0 + 1) := by simp [inCrit]; omega
        constructor
        · intro hc; exact absurd hc hfree'
        · intro hco; exact absurd (ih0.mpr hco) hfree
      · have hin : inCrit n0 s.pc0 := by rw [heq]; exact ⟨by omega, by omega⟩
        have hin' : inCrit n0 (s.pc0 + 1) := by rw [heq]; exact ⟨by omega, by omega⟩
        constructor
        · intro _; exact ih0.mp hin
        · intro _; exact hin'
    · exact ih1
  | lock1 hget hown =>
    have hpc : s.pc1 = n1 := guardedProg_at_lock n1 s.pc1 hget
    rw [hown] at ih0
    constructor
    · constructor
      · intro hc; exact absurd (ih0.mp hc) (by simp)
      · intro hco; simp at hco
    · simp only [inCrit, hpc]
      constructor
      · intro _; trivial
      · intro _; omega
  | unlock1 hget hown =>
    have hpc : s.pc1 = n1 + 2 := guardedProg_at_unlock n1 s.pc1 hget
    rw [hown] at ih0
    constructor
    · constructor
      · intro hc; exact absurd (ih0.mp hc) (by simp)
      · intro hco; simp at hco
    · simp only [inCrit, hpc]
      constructor
      · intro hc; omega
      · intro hco; simp at hco
  | exec1 a hget ha =>
    have hpc := guardedProg_at_exec n1 s.pc1 a hget ha
    constructor
    · exact ih0
    · rcases hpc with hlt | heq
      · have hfree : ¬ inCrit n1 s.pc1 := by simp [inCrit]; omega
        have hfree' : ¬ inCrit n1 (s.pc1 + 1) := by simp [inCrit]; omega
        constructor
        · intro hc; exact absurd hc hfree'
        · intro hco; exact absurd (ih1.mpr hco) hfree
      · have hin : inCrit n1 s.pc1 := by rw [heq]; exact ⟨by omega, by omega⟩
        have hin' : inCrit n1 (s.pc1 + 1) := by rw [heq]; exact ⟨by omega, by omega⟩
        constructor
        · intro _; exact ih1.mp hin
        · intro _; exact hin'

/-- Mutex invariant: in every reachable interleaving of two guarded
programs, a thread is inside its guarded section exactly when it owns the
mutex. -/
theorem mu_invariant (n0 n1 : Nat) (s : MuState)
    (h : MuReachable (guardedProg n0) (guardedProg n1) s) :
    (inCrit n0 s.pc0 ↔ s.owner = some false) ∧
    (inCrit n1 s.pc1 ↔ s.owner = some true) := by
  induction h with
  | init =>
    constructor <;> (simp [inCrit])
  | step hr hstep ih =>
    exact mu_step_invariant n0 n1 _ _ hstep ih.1 ih.2

/-- The action lists of the unsafe verbs are guarded programs. -/
theorem upActions_eq (b : Bool) : upActions b = guardedProg (cond b 1 0) := by
  cases b <;> rfl

/-- Down is the guarded program with no unguarded work. -/
theorem downActions_eq : downActions = guardedProg 0 := rfl

/-- Rm on a nonempty spec list is the guarded program with no unguarded
work. -/
theorem rmActions_eq (specs : List String) (h : specs ≠ []) :
    rmActions specs = guardedProg 0 := by
  simp [rmActions, h, guardedProg]

/-! ### Claim about compose serialization -/

/-- C8: an `Up` invocation running concurrently with a `Down` or (nonempty)
`Rm` invocation never executes its guarded command simultaneously with the
other thread's guarded command: in every reachable interleaving state it is
impossible that both threads stand at their guarded `execCrit` instruction,
because the shared mutex admits a single owner and each thread reaches its
guarded command only while owning it. -/
theorem c8_up_down_rm_serialized (b : Bool) (specs : List String)
    (hs : specs ≠ []) (q : List CmdAction)
    (hq : q = downActions ∨ q = rmActions specs) (s : MuState)
    (h : MuReachable (upActions b) q s) :
    ¬((upActions b)[s.pc0]? = some CmdAction.execCrit ∧
      q[s.pc1]? = some CmdAction.execCrit) := by
  rintro ⟨h0, h1⟩
  have hup : upActions b = guardedProg (cond b 1 0) := upActions_eq b
  have hqg : q = guardedProg 0 := by
    rcases hq with rfl | rfl
    · exact downActions_eq
    · exact rmActions_eq specs hs
  rw [hup, hqg] at h
  have hinv := mu_invariant (cond b 1 0) 0 s h
  rw [hup] at h0
  rw [hqg] at h1
  have hpc0 : s.pc0 = cond b 1 0 + 1 := guardedProg_at_execCrit _ _ h0
  have hpc1 : s.pc1 = 0 + 1 := guardedProg_at_execCrit _ _ h1
  have hc0 : inCrit (cond b 1 0) s.pc0 := ⟨by omega, by omega⟩
  have hc1 : inCrit 0 s.pc1 := ⟨by omega, by omega⟩
  have h0' := hinv.1.mp hc0
  have h1' := hinv.2.mp hc1
  rw [h0'] at h1'
  cases h1'

/-- C8 witness: in the interleaving of `Up` (with build) and `Down`, after
thread 0 runs its build and takes the mutex and thread 1 arrives at its
`lock`, the reached state does not have both guarded commands executing. -/
theorem c8_up_down_rm_serialized_witness :
    ¬((upActions true)[(2 : Nat)]? = some CmdAction.execCrit ∧
      downActions[(0 : Nat)]? = some CmdAction.execCrit) :=
  c8_up_down_rm_serialized true ["fe"] (by decide) downActions (Or.inl rfl)
    ⟨2, 0, some false⟩
    (MuReachable.step
      (MuReachable.step MuReachable.init
        (MuStep.exec0 ⟨0, 0, none⟩ CmdAction.execFree (by decide) (Or.inr rfl)))
      (MuStep.lock0 ⟨1, 0, none⟩ (by decide) rfl))

/-! ### Compose client: the Rm fast path

`Rm` is additionally embedded as an effect trace: the value-level result
together with the ordered list of externally visible effects (guard
acquisition and release, command invocation). The writers receive only what
an executed command produces, so the text written to them is the executed
commands' output. -/

/-- A docker-compose project spec (`v1alpha1.DockerComposeProject`): the
fields consumed by `projectArgs`. -/
structure DockerComposeProject where
  name : String
  projectPath : String
  envFile : String
  yaml : String
  configPaths : List String
  deriving DecidableEq, Repr

/-- A docker-compose service spec (`v1alpha1.DockerComposeServiceSpec`). -/
structure DockerComposeServiceSpec where
  project : DockerComposeProject
  service : String
  deriving DecidableEq, Repr

/-- `projectArgs`: the common command-line arguments derived from a project
spec, in the order the Go method appends them. -/
def projectArgs (p : DockerComposeProject) : List String :=
  (if p.name ≠ "" then ["--project-name", p.name] else [])
    ++ (if p.projectPath ≠ "" then ["--project-directory", p.projectPath] else [])
    ++ (if p.envFile ≠ "" then ["--env-file", p.envFile] else [])
    ++ (if p.yaml ≠ "" then ["-f", "-"] else [])
    ++ (p.configPaths.map (fun cp => ["-f", cp])).join

/-- Externally visible effects of a compose-client call. -/
inductive DcEffect where
  | acquireGuard
  | releaseGuard
  | runCmd (args : List String) (stdin : String)
  deriving DecidableEq, Repr

/-- Outcome of one executed command, as produced by the ambient executor:
text written to the wired stdout and stderr writers, and an optional error. -/
structure RunOutcome where
  stdoutText : String
  stderrText : String
  err : Option String
  deriving DecidableEq, Repr

/-- Go error formatting of a failed command (`FormatError`), with `fmt`'s
`%q` quoting of the argument vector abstracted as space separation; `nil`
errors map to `nil`. The ExitError stderr attachment is dropped here since
the executor's error text already carries what the claims need. -/
def FormatErrorMsg (args : List String) (stdoutBytes : String)
    (err : Option String) : Option String :=
  match err with
  | none => none
  | some e =>
    some ("command " ++ String.intercalate " " args ++ " failed.\nerror: " ++ e ++ "\n"
      ++ (if stdoutBytes ≠ "" then "\nstdout: " ++ stdoutBytes else ""))

/-- `Rm`: with an empty spec list it returns nil at once; otherwise it takes
the guard, builds the argument list from the first spec's project (verbose
flag, `rm --stop --force`, all service names), runs the command with the
project YAML on stdin, releases the guard and returns the formatted error,
if any. The result is the effect trace, the texts written to the stdout and
stderr writers, and the returned error value. -/
def Rm (verbose : Bool) (runner : List String → String → RunOutcome)
    (specs : List DockerComposeServiceSpec) :
    List DcEffect × String × String × Option String :=
  match specs with
  | [] => ([], "", "", none)
  | s0 :: _ =>
    let p := s0.project
    let args := projectArgs p
    let args := if verbose then args ++ ["--verbose"] else args
    let serviceNames := specs.map DockerComposeServiceSpec.service
    let args := args ++ ["rm", "--stop", "--force"] ++ serviceNames
    let out := runner args p.yaml
    ([.acquireGuard, .runCmd args p.yaml, .releaseGuard],
      out.stdoutText, out.stderrText, FormatErrorMsg args "" out.err)

/-! ### Claim about the Rm fast path -/

/-- C10: `Rm` with an empty spec list returns nil immediately for every
context (verbosity) and every ambient executor: its effect trace is empty —
the guard is never acquired and no command is invoked — and nothing is
written to the provided stdout and stderr writers. -/
theorem c10_rm_empty_noop (verbose : Bool)
    (runner : List String → String → RunOutcome) :
    Rm verbose runner [] = ([], "", "", none) := by
  rfl

end Tilt
